import Mathlib

/-!
Shallow embedding of the allocation-sampling core (`objectSampler.cpp`) of an
async-profiler fork.

Modelling conventions:
* Machine integers (`u32`, `u64`, `jlong`, `uintptr_t`) are modelled as `Nat`.
  Allocation sizes are non-negative on this path (the runtime reports sizes of
  sampled allocations), so `jlong` sizes are `Nat` as well.  Where 64-bit
  wraparound could matter (the probe-start hash) the result is reduced modulo
  the table capacity, a power of two dividing `2^64`, so the `Nat` value agrees
  with the C computation.
* JNI weak global references (`jweak`) are handle identifiers (`Nat`);
  a `NULL` handle is `Option.none`.  The runtime environment's replies
  (`NewWeakGlobalRef`, referent-collected status, `TSC::ticks`, the class
  signature, the interned class id) are passed in as explicit parameters.
* The external class map (`Profiler::classMap()->lookup`) is a parameter
  `classMap : List Char → Nat`; C strings are `List Char`.
* The `SpinLock` is a `Bool` (`true` = held).  Code that acquires and releases
  the lock inside one call is modelled by the lock state of the resulting
  table; `tryLock` failure corresponds to calling `add` on a locked state.
-/

/-- One entry of the live-reference table: the `_refs[i]` weak handle together
with the parallel `_values[i]` record (`size`, `trace`, `time`). -/
structure Slot where
  ref : Option Nat
  size : Nat
  trace : Nat
  time : Nat
deriving DecidableEq, Repr

/-- The zero-initialized slot (`memset(_refs, 0, ...)`, `memset(_values, 0, ...)`). -/
def Slot.empty : Slot := ⟨none, 0, 0, 0⟩

/-- State of the `LiveRefs` table: the spin lock, the slot array and the
sticky `_full` flag.  The capacity is the length of `slots`
(`MAX_REFS = 1024` in the source). -/
structure LiveRefsState where
  locked : Bool
  slots : List Slot
  full : Bool
deriving DecidableEq, Repr

/-- The source's fixed table capacity (`enum { MAX_REFS = 1024 }`). -/
def MAX_REFS : Nat := 1024

/-- `AllocEvent` as built by `ObjectSampler::recordAllocation`. -/
structure AllocEvent where
  total_size : Nat
  instance_size : Nat
  class_id : Nat
deriving DecidableEq, Repr

/-- `LiveObject` event as built by `LiveRefs::dump`. -/
structure LiveObject where
  alloc_size : Nat
  alloc_time : Nat
  class_id : Nat
deriving DecidableEq, Repr

/-- One `Profiler::recordExternalSample(weight, tid, BCI_LIVE_OBJECT, &event,
call_trace_id)` call emitted by `LiveRefs::dump`. -/
structure ExternalSample where
  weight : Nat
  tid : Nat
  event : LiveObject
  call_trace_id : Nat
deriving DecidableEq, Repr

/-- Replies of the runtime environment consumed by one `LiveRefs::add` call:
the weak handle returned by `NewWeakGlobalRef` (`none` = `NULL`), the
referent-collected predicate backing `collected(w)`, the `object` and `jni`
pointer values feeding the probe-start hash, and the `TSC::ticks()` reply. -/
structure AddEnv where
  wobject : Option Nat
  collected : Nat → Bool
  object : Nat
  jni : Nat
  time : Nat

/-- Result of one `LiveRefs::add` call: the table afterwards, the weak handle
acquired from the runtime (if any), the handles passed to
`DeleteWeakGlobalRef` during the call, and the slot written (if any). -/
structure AddResult where
  table : LiveRefsState
  acquired : Option Nat
  released : List Nat
  storedAt : Option Nat
deriving DecidableEq, Repr

/-- Result of one `LiveRefs::dump` call: the table afterwards, the emitted
`recordExternalSample` calls in slot order, and the handles passed to
`DeleteWeakGlobalRef`. -/
structure DumpResult where
  table : LiveRefsState
  events : List ExternalSample
  released : List Nat
deriving DecidableEq, Repr

/-- Embedding of `lookupClassId`: `GetClassSignature` failure (`sig = none`)
yields 0; a signature whose first byte is `'L'` is interned from byte 1 with
length `strlen - 2` (dropping the first and last byte); any other signature is
interned whole. -/
def lookupClassId (classMap : List Char → Nat) (sig : Option (List Char)) : Nat :=
  match sig with
  | none => 0
  | some [] => classMap []
  | some (c :: rest) =>
    if c = 'L' then classMap (rest.take ((c :: rest).length - 2)) else classMap (c :: rest)

/-- Whether a slot can be taken over by `add`: `w == NULL || collected(w)`. -/
def reusable (collected : Nat → Bool) (s : Slot) : Bool :=
  match s.ref with
  | none => true
  | some w => collected w

/-- Handles released when a slot is overwritten: `if (w != NULL)
DeleteWeakGlobalRef(w)`. -/
def releasedOf (s : Slot) : List Nat :=
  match s.ref with
  | none => []
  | some w => [w]

/-- The probe-start hash of `LiveRefs::add`:
`(((uintptr_t)object >> 4) * 31 + ((uintptr_t)jni >> 4) + trace) & (MAX_REFS - 1)`.
Masking with `MAX_REFS - 1` is reduction modulo the power-of-two capacity, and
because the capacity divides `2^64` the 64-bit wraparound of the sum does not
change the residue. -/
def hashStart (C object jni trace : Nat) : Nat :=
  ((object >>> 4) * 31 + (jni >>> 4) + trace) % C

/-- The do-while probe loop of `LiveRefs::add`, one fuel unit per probe.  At
index `i`: an empty or collected slot is overwritten with the new entry (the
previous handle, if present, is released) and the loop stops; otherwise the
index advances by one modulo capacity.  Exhausted fuel models the loop
wrapping back to `start`, where the caller releases the new handle. -/
def probeStore (collected : Nat → Bool) (wo size trace time : Nat)
    (slots : List Slot) : Nat → Nat → List Slot × List Nat × Option Nat
  | _, 0 => (slots, [wo], none)
  | i, fuel + 1 =>
    match (slots.getD i Slot.empty).ref with
    | none => (slots.set i ⟨some wo, size, trace, time⟩, [], some i)
    | some w =>
      if collected w then (slots.set i ⟨some wo, size, trace, time⟩, [w], some i)
      else probeStore collected wo size trace time slots ((i + 1) % slots.length) fuel

/-- Declarative description of the probe: the first index, in linear probe
order with wraparound starting from `start`, whose slot is empty or holds a
collected referent. -/
def firstReusable (collected : Nat → Bool) (slots : List Slot) (start : Nat) : Option Nat :=
  ((List.range slots.length).map (fun k => (start + k) % slots.length)).find?
    (fun j => reusable collected (slots.getD j Slot.empty))

namespace LiveRefs

/-- State of the static `live_refs` object after construction
(`LiveRefs() : _lock(1)` on zero-initialized static storage): lock held,
all slots zeroed, `_full` clear. -/
def initial : LiveRefsState := ⟨true, List.replicate MAX_REFS Slot.empty, false⟩

/-- Embedding of `LiveRefs::init`: zero the slots, clear `_full`, release the
lock.  `C` is the table capacity (`MAX_REFS` in the source). -/
def init (C : Nat) : LiveRefsState := ⟨false, List.replicate C Slot.empty, false⟩

/-- Embedding of `LiveRefs::gc`: clear the sticky `_full` flag. -/
def gc (st : LiveRefsState) : LiveRefsState := { st with full := false }

/-- Embedding of `LiveRefs::add`.  A full table returns before any handle is
acquired; a `NULL` weak handle returns untouched; a failed `tryLock` releases
the fresh handle; otherwise the probe loop runs a full cycle from the hash
start, either storing the entry or, when no slot is reusable, setting `_full`
and releasing the fresh handle. -/
def add (st : LiveRefsState) (env : AddEnv) (size trace : Nat) : AddResult :=
  if st.full then ⟨st, none, [], none⟩
  else
    match env.wobject with
    | none => ⟨st, none, [], none⟩
    | some wo =>
      if st.locked then ⟨st, some wo, [wo], none⟩
      else
        let start := hashStart st.slots.length env.object env.jni trace
        match probeStore env.collected wo size trace env.time st.slots start st.slots.length with
        | (slots1, rel, some i) => ⟨⟨false, slots1, st.full⟩, some wo, rel, some i⟩
        | (slots1, rel, none) => ⟨⟨false, slots1, true⟩, some wo, rel, none⟩

/-- The `recordExternalSample` call built from a surviving slot: weight and
`_alloc_size` are the stored size, `_alloc_time` the stored time, `_class_id`
is resolved now from the materialized referent, `tid` is the high 32 bits of
the stored trace (truncated to a 32-bit `int`) and `call_trace_id` its low 32
bits. -/
def mkLiveSample (classIdOf : Nat → Nat) (s : Slot) (w : Nat) : ExternalSample :=
  { weight := s.size
    tid := (s.trace >>> 32) % 2 ^ 32
    event := { alloc_size := s.size, alloc_time := s.time, class_id := classIdOf w }
    call_trace_id := s.trace % 2 ^ 32 }

/-- The slot scan of `LiveRefs::dump`, in slot order: an empty slot emits and
releases nothing; a slot whose referent is collected (`NewLocalRef` returned
`NULL`) releases only the weak handle; a surviving slot emits one event and
releases the weak handle.  `classIdOf` models
`lookupClassId(jvmti, GetObjectClass(obj))` on the materialized referent.
The `PushLocalFrame`/`PopLocalFrame` batching bounds local references and
does not affect the emitted events. -/
def dumpLoop (collected : Nat → Bool) (classIdOf : Nat → Nat) :
    List Slot → List ExternalSample × List Nat
  | [] => ([], [])
  | s :: rest =>
    match s.ref with
    | none => dumpLoop collected classIdOf rest
    | some w =>
      if collected w then
        ((dumpLoop collected classIdOf rest).1, w :: (dumpLoop collected classIdOf rest).2)
      else
        (mkLiveSample classIdOf s w :: (dumpLoop collected classIdOf rest).1,
          w :: (dumpLoop collected classIdOf rest).2)

/-- Embedding of `LiveRefs::dump`: acquire the lock (and never release it),
scan every slot, leave slots, values and `_full` untouched. -/
def dump (st : LiveRefsState) (collected : Nat → Bool) (classIdOf : Nat → Nat) : DumpResult :=
  let r := dumpLoop collected classIdOf st.slots
  ⟨{ st with locked := true }, r.1, r.2⟩

end LiveRefs

namespace ObjectSampler

/-- Result of `ObjectSampler::recordAllocation`: the `AllocEvent` built, the
weight (second argument) passed to `Profiler::recordSample`, and the result of
the `live_refs.add` call when live tracking is on (`none` otherwise). -/
structure RecordResult where
  event : AllocEvent
  weight : Nat
  addResult : Option AddResult

/-- Embedding of `ObjectSampler::recordAllocation`.  `interval` is
`_interval`, `live` is `_live`, `st` the live-reference table, `trace` the
value returned by the weight-0 `recordSample` call on the live path, `sig` the
`GetClassSignature` reply for `object_klass`.  On the non-live path the source
passes `size` (not `event._total_size`) as the `recordSample` weight. -/
def recordAllocation (interval : Nat) (live : Bool) (st : LiveRefsState) (env : AddEnv)
    (classMap : List Char → Nat) (sig : Option (List Char)) (size trace : Nat) :
    RecordResult :=
  let event : AllocEvent :=
    { total_size := if size > interval then size else interval
      instance_size := size
      class_id := lookupClassId classMap sig }
  if live then
    { event := event, weight := 0, addResult := some (LiveRefs.add st env size trace) }
  else
    { event := event, weight := size, addResult := none }

/-- Capability-check error message of `ObjectSampler::check`. -/
def capabilityError : String := "SampledObjectAlloc is not supported on this JVM"

/-- Embedding of `ObjectSampler::check`: an `Error` is `some message`,
`Error::OK` is `none`.  `canSampleObjects` is the `VM::canSampleObjects()`
reply; the function is pure (validation only). -/
def check (canSampleObjects : Bool) : Option String :=
  if !canSampleObjects then some capabilityError else none

/-- Configuration read by `ObjectSampler::start`: `args._alloc` (may be
non-positive) and `args._live`. -/
structure Arguments where
  alloc : Int
  live : Bool

/-- Global sampler state touched by `ObjectSampler::start`: `_interval`,
`_live`, the `live_refs` table, and the JVMTI surface (heap sampling interval,
the two event-notification modes). -/
structure SamplerState where
  interval : Nat
  live : Bool
  liveRefs : LiveRefsState
  heapSamplingInterval : Option Nat
  allocEvents : Bool
  gcEvents : Bool
deriving DecidableEq, Repr

/-- Embedding of `ObjectSampler::initLiveRefs`: store the live flag and, when
live tracking is on, initialize the table (capacity is the table's fixed array
length). -/
def initLiveRefs (st : SamplerState) (live : Bool) : SamplerState :=
  { st with
    live := live
    liveRefs := if live then LiveRefs.init st.liveRefs.slots.length else st.liveRefs }

/-- Embedding of `ObjectSampler::start`: run `check`; on error return it with
the state untouched; otherwise set `_interval` (the configured value when
positive, else `DEFAULT_ALLOC_INTERVAL`, passed here as
`defaultAllocInterval`), initialize live tracking, set the heap sampling
interval and enable both event notifications. -/
def start (canSampleObjects : Bool) (defaultAllocInterval : Nat) (args : Arguments)
    (st : SamplerState) : Option String × SamplerState :=
  match check canSampleObjects with
  | some e => (some e, st)
  | none =>
    let interval := if args.alloc > 0 then args.alloc.toNat else defaultAllocInterval
    let st1 := initLiveRefs { st with interval := interval } args.live
    (none,
      { st1 with
        heapSamplingInterval := some interval
        allocEvents := true
        gcEvents := true })

end ObjectSampler

/-- Declarative per-slot view of the dump scan: the event a slot contributes,
`none` for an empty slot or a collected referent, otherwise the
`recordExternalSample` call built from the stored values. -/
def slotEvent (collected : Nat → Bool) (classIdOf : Nat → Nat) (s : Slot) :
    Option ExternalSample :=
  match s.ref with
  | none => none
  | some w => if collected w then none else some (LiveRefs.mkLiveSample classIdOf s w)

/-- Whether a slot holds a handle whose referent is still alive at drain
time. -/
def slotAlive (collected : Nat → Bool) (s : Slot) : Bool :=
  match s.ref with
  | none => false
  | some w => !collected w

/-- Number of populated slots of the table (slots holding a weak handle). -/
def populated (st : LiveRefsState) : Nat := st.slots.countP (fun s => s.ref.isSome)

/-- Inputs of one `LiveRefs::add` call, for iterating `add` over a sequence of
sampled allocations. -/
structure AddOp where
  env : AddEnv
  size : Nat
  trace : Nat

/-- Iterate `LiveRefs::add` over a sequence of registrations. -/
def addMany (st : LiveRefsState) (ops : List AddOp) : LiveRefsState :=
  ops.foldl (fun s op => (LiveRefs.add s op.env op.size op.trace).table) st

/-- The multiset of weak handles currently owned by the table. -/
def tableHandles (st : LiveRefsState) : Multiset Nat :=
  ↑(st.slots.filterMap (fun s => s.ref))

/-- Example four-slot table for the concrete witnesses: handles 1 and 2 in
slots 0 and 1, slot 2 empty, handle 3 in slot 3. -/
def exampleTable : LiveRefsState :=
  ⟨false, [⟨some 1, 11, 5, 1⟩, ⟨some 2, 22, 6, 2⟩, ⟨none, 0, 0, 0⟩, ⟨some 3, 33, 7, 3⟩], false⟩

/-- Example `add` environment: fresh handle 9 available, handle 2's referent
collected, object address 16 (so the probe starts at slot `31 % 4 = 3` when
`jni = 0` and `trace = 0`). -/
def exampleEnv : AddEnv := ⟨some 9, fun w => w == 2, 16, 0, 77⟩

/-- Example one-slot table whose sticky full flag is set. -/
def fullTable : LiveRefsState := ⟨false, [⟨some 1, 11, 5, 1⟩], true⟩

/-- Example one-slot table whose lock is held. -/
def lockedTable : LiveRefsState := ⟨true, [⟨none, 0, 0, 0⟩], false⟩

/-- Example `add` environment with a fresh handle 7 and no collected referents. -/
def plainEnv : AddEnv := ⟨some 7, fun _ => false, 0, 0, 0⟩

/-- Example `add` environment whose `NewWeakGlobalRef` reply is `NULL`. -/
def noHandleEnv : AddEnv := ⟨none, fun _ => false, 0, 0, 0⟩

/-- Example one-slot table for the dump witness: handle 4, size 500, trace
packing thread id 3 and call-trace id 7, capture time 99. -/
def dumpTable : LiveRefsState := ⟨false, [⟨some 4, 500, 3 <<< 32 ||| 7, 99⟩], false⟩

/-- Five registrations that all hash to slot 0 of a four-slot table, with all
referents alive and distinct fresh handles 10..14. -/
def exampleOps : List AddOp :=
  [⟨⟨some 10, fun _ => false, 0, 0, 0⟩, 5, 0⟩,
   ⟨⟨some 11, fun _ => false, 0, 0, 0⟩, 5, 0⟩,
   ⟨⟨some 12, fun _ => false, 0, 0, 0⟩, 5, 0⟩,
   ⟨⟨some 13, fun _ => false, 0, 0, 0⟩, 5, 0⟩,
   ⟨⟨some 14, fun _ => false, 0, 0, 0⟩, 5, 0⟩]

/-- C1: for every sampled allocation of size `s` processed by
`recordAllocation` with configured interval `I > 0`, the built `AllocEvent`
has `instanceSize = s` and `totalSize = max s I`. -/
theorem recordAllocation_event_sizes (interval : Nat) (live : Bool) (st : LiveRefsState)
    (env : AddEnv) (classMap : List Char → Nat) (sig : Option (List Char)) (size trace : Nat)
    (_hI : 0 < interval) :
    (ObjectSampler.recordAllocation interval live st env classMap sig size trace).event.instance_size
        = size ∧
    (ObjectSampler.recordAllocation interval live st env classMap sig size trace).event.total_size
        = max size interval := by
  have hmax : (if size > interval then size else interval) = max size interval := by
    rcases le_or_lt size interval with h | h
    · rw [if_neg (by omega), Nat.max_eq_right h]
    · rw [if_pos h, Nat.max_eq_left (le_of_lt h)]
  unfold ObjectSampler.recordAllocation
  cases live <;> exact ⟨rfl, hmax⟩

/-- Witness for C1 at scenario 3: `interval = 1000000`, `size = 500`. -/
theorem recordAllocation_event_sizes_witness :
    (0 : Nat) < 1000000 ∧
    (ObjectSampler.recordAllocation 1000000 false LiveRefs.initial
        ⟨none, fun _ => false, 0, 0, 0⟩ (fun _ => 0) none 500 0).event.instance_size = 500 ∧
    (ObjectSampler.recordAllocation 1000000 false LiveRefs.initial
        ⟨none, fun _ => false, 0, 0, 0⟩ (fun _ => 0) none 500 0).event.total_size
        = max 500 1000000 := by
  refine ⟨by decide, ?_⟩
  exact recordAllocation_event_sizes 1000000 false LiveRefs.initial
    ⟨none, fun _ => false, 0, 0, 0⟩ (fun _ => 0) none 500 0 (by decide)

/-- C2 (code bug evidence): with live tracking disabled, `interval = 1000000`
and `size = 500`, the source passes `size` as the `recordSample` weight, so
the recorded weight is `500` while the event's `totalSize` is `1000000`; the
spec requires the weight to equal `totalSize`.  No live-table interaction
happens on this path. -/
theorem recordAllocation_weight_is_size_not_total :
    (ObjectSampler.recordAllocation 1000000 false LiveRefs.initial
        ⟨none, fun _ => false, 0, 0, 0⟩ (fun _ => 0) none 500 0).weight = 500 ∧
    (ObjectSampler.recordAllocation 1000000 false LiveRefs.initial
        ⟨none, fun _ => false, 0, 0, 0⟩ (fun _ => 0) none 500 0).event.total_size = 1000000 ∧
    (ObjectSampler.recordAllocation 1000000 false LiveRefs.initial
        ⟨none, fun _ => false, 0, 0, 0⟩ (fun _ => 0) none 500 0).addResult = none := by
  refine ⟨rfl, by decide, rfl⟩

/-- C8: the class-identity resolver returns 0 when the runtime supplies no
signature; a signature framed as `L<name>;` is interned with the leading `L`
and trailing `;` stripped; a signature not starting with `L` is interned
unchanged. -/
theorem lookupClassId_spec (classMap : List Char → Nat) (sig : Option (List Char)) :
    (sig = none → lookupClassId classMap sig = 0) ∧
    (∀ name, sig = some ('L' :: name ++ [';']) → lookupClassId classMap sig = classMap name) ∧
    (∀ c cs, sig = some (c :: cs) → c ≠ 'L' → lookupClassId classMap sig = classMap (c :: cs)) := by
  refine ⟨fun h => by simp [h, lookupClassId], fun name h => ?_, fun c cs h hc => ?_⟩
  · subst h
    have hstep : lookupClassId classMap (some ('L' :: name ++ [';']))
        = classMap ((name ++ [';']).take (('L' :: name ++ [';']).length - 2)) := rfl
    have hlen : ('L' :: name ++ [';']).length - 2 = name.length := by
      simp only [List.length_cons, List.length_append, List.length_nil]
      omega
    rw [hstep, hlen, List.take_append_of_le_length (le_refl _), List.take_length]
  · subst h
    simp only [lookupClassId, if_neg hc]

/-- Witness for C8: the resolver strips the framing of `LAB;` and interns
`AB`, leaves `I` unchanged, and returns 0 on a missing signature. -/
theorem lookupClassId_spec_witness :
    lookupClassId (fun l => 100 + l.length) (some ('L' :: ['A', 'B'] ++ [';'])) = 102 ∧
    lookupClassId (fun l => 100 + l.length) (some ['I']) = 101 ∧
    lookupClassId (fun l => 100 + l.length) none = 0 := by
  refine ⟨?_, ?_, ?_⟩
  · have h := (lookupClassId_spec (fun l => 100 + l.length)
      (some ('L' :: ['A', 'B'] ++ [';']))).2.1 ['A', 'B'] rfl
    simpa using h
  · have h := (lookupClassId_spec (fun l => 100 + l.length) (some ['I'])).2.2 'I' [] rfl
      (by decide)
    simpa using h
  · exact (lookupClassId_spec (fun l => 100 + l.length) none).1 rfl

/-- C9: on a runtime without the sampled-allocation capability, `check`
returns the capability error (purely, with no side effect), and `start`
returns the same error with the sampler state unchanged: no interval, no
live-table initialization, no subscription changes. -/
theorem start_capability_error (defaultAllocInterval : Nat) (args : ObjectSampler.Arguments)
    (st : ObjectSampler.SamplerState) (canSampleObjects : Bool)
    (h : canSampleObjects = false) :
    ObjectSampler.check canSampleObjects = some ObjectSampler.capabilityError ∧
    ObjectSampler.start canSampleObjects defaultAllocInterval args st
      = (some ObjectSampler.capabilityError, st) := by
  subst h
  exact ⟨rfl, rfl⟩

/-- Witness for C9 at a concrete sampler state. -/
theorem start_capability_error_witness :
    (false = false) ∧
    ObjectSampler.check false = some ObjectSampler.capabilityError ∧
    ObjectSampler.start false 524287 ⟨0, true⟩
        ⟨0, false, LiveRefs.initial, none, false, false⟩
      = (some ObjectSampler.capabilityError,
          ⟨0, false, LiveRefs.initial, none, false, false⟩) := by
  refine ⟨rfl, ?_⟩
  exact start_capability_error 524287 ⟨0, true⟩
    ⟨0, false, LiveRefs.initial, none, false, false⟩ false rfl

/-- The probe loop never changes the number of slots: it either stores into an
existing slot or leaves the array untouched. -/
theorem probeStore_length (collected : Nat → Bool) (wo size trace time : Nat)
    (slots : List Slot) :
    ∀ fuel i, (probeStore collected wo size trace time slots i fuel).1.length
      = slots.length := by
  intro fuel
  induction fuel with
  | zero => intro i; rfl
  | succ fuel ih =>
    intro i
    rw [probeStore]
    rcases h : (slots.getD i Slot.empty).ref with _ | w
    · simp only [List.length_set]
    · by_cases hc : collected w
      · simp only [if_pos hc, List.length_set]
      · simp only [if_neg hc]
        exact ih ((i + 1) % slots.length)

/-- The probe loop started at `i` with `fuel` probes left behaves as a search
for the first reusable index among `i, i+1, ..., i+fuel-1` (mod capacity):
it stores the new entry there and releases the previous handle if any, or
reports failure after releasing nothing and touching nothing. -/
theorem probeStore_eq_find (collected : Nat → Bool) (wo size trace time : Nat)
    (slots : List Slot) (hC : 0 < slots.length) :
    ∀ fuel i, i < slots.length →
    probeStore collected wo size trace time slots i fuel =
      (match ((List.range fuel).map (fun k => (i + k) % slots.length)).find?
          (fun j => reusable collected (slots.getD j Slot.empty)) with
        | some j => (slots.set j ⟨some wo, size, trace, time⟩,
            releasedOf (slots.getD j Slot.empty), some j)
        | none => (slots, [wo], none)) := by
  intro fuel
  induction fuel with
  | zero => intro i _; rfl
  | succ fuel ih =>
    intro i hi
    have hrange : (List.range (fuel + 1)).map (fun k => (i + k) % slots.length)
        = i :: (List.range fuel).map (fun k => ((i + 1) % slots.length + k) % slots.length) := by
      rw [List.range_succ_eq_map, List.map_cons, List.map_map]
      congr 1
      · simpa using Nat.mod_eq_of_lt hi
      · congr 1
        funext k
        simp only [Function.comp_apply]
        rw [Nat.mod_add_mod]
        congr 1
        omega
    rw [probeStore, hrange]
    rcases h : (slots.getD i Slot.empty).ref with _ | w
    · have hfind : List.find? (fun j => reusable collected (slots.getD j Slot.empty))
          (i :: (List.range fuel).map (fun k => ((i + 1) % slots.length + k) % slots.length))
          = some i := by
        apply List.find?_cons_of_pos
        show reusable collected (slots.getD i Slot.empty) = true
        unfold reusable
        rw [h]
      rw [hfind]
      show (slots.set i ⟨some wo, size, trace, time⟩, ([], some i))
          = (slots.set i ⟨some wo, size, trace, time⟩,
              (releasedOf (slots.getD i Slot.empty), some i))
      unfold releasedOf
      rw [h]
    · by_cases hc : collected w = true
      · have hfind : List.find? (fun j => reusable collected (slots.getD j Slot.empty))
            (i :: (List.range fuel).map (fun k => ((i + 1) % slots.length + k) % slots.length))
            = some i := by
          apply List.find?_cons_of_pos
          show reusable collected (slots.getD i Slot.empty) = true
          unfold reusable
          rw [h]
          exact hc
        rw [hfind]
        show (if collected w = true
              then (slots.set i ⟨some wo, size, trace, time⟩, ([w], some i))
              else probeStore collected wo size trace time slots ((i + 1) % slots.length) fuel)
            = (slots.set i ⟨some wo, size, trace, time⟩,
                (releasedOf (slots.getD i Slot.empty), some i))
        rw [if_pos hc]
        unfold releasedOf
        rw [h]
      · have hfind : List.find? (fun j => reusable collected (slots.getD j Slot.empty))
            (i :: (List.range fuel).map (fun k => ((i + 1) % slots.length + k) % slots.length))
            = List.find? (fun j => reusable collected (slots.getD j Slot.empty))
                ((List.range fuel).map (fun k => ((i + 1) % slots.length + k) % slots.length)) := by
          apply List.find?_cons_of_neg
          show ¬(reusable collected (slots.getD i Slot.empty) = true)
          unfold reusable
          rw [h]
          exact hc
        rw [hfind]
        show (if collected w = true
              then (slots.set i ⟨some wo, size, trace, time⟩, ([w], some i))
              else probeStore collected wo size trace time slots ((i + 1) % slots.length) fuel)
            = _
        rw [if_neg hc]
        exact ih ((i + 1) % slots.length) (Nat.mod_lt _ hC)

/-- C3: when `add` wins the lock on a non-full table with a fresh handle, it
computes the starting index as the hash of the object identity, the capturing
JNI context and the trace value modulo capacity, probes linearly with
wraparound for the first slot that is empty or holds a collected referent,
overwrites that slot's handle/size/trace/time releasing exactly the previous
handle found there; if the full probe cycle finds no reusable slot it sets
the sticky full flag, leaves the table unchanged (no growth) and releases the
fresh handle; the lock is released on both exit paths. -/
theorem add_probe_spec (st : LiveRefsState) (env : AddEnv) (wo size trace : Nat)
    (hw : env.wobject = some wo) (hfull : st.full = false) (hlock : st.locked = false)
    (hC : 0 < st.slots.length) :
    (LiveRefs.add st env size trace).table.locked = false ∧
    (match firstReusable env.collected st.slots
        (hashStart st.slots.length env.object env.jni trace) with
      | some i =>
        LiveRefs.add st env size trace =
          ⟨⟨false, st.slots.set i ⟨some wo, size, trace, env.time⟩, false⟩, some wo,
            releasedOf (st.slots.getD i Slot.empty), some i⟩
      | none =>
        LiveRefs.add st env size trace =
          ⟨⟨false, st.slots, true⟩, some wo, [wo], none⟩) := by
  have hstart : hashStart st.slots.length env.object env.jni trace < st.slots.length :=
    Nat.mod_lt _ hC
  have hadd : LiveRefs.add st env size trace =
      (match probeStore env.collected wo size trace env.time st.slots
          (hashStart st.slots.length env.object env.jni trace) st.slots.length with
        | (slots1, rel, some i) => ⟨⟨false, slots1, st.full⟩, some wo, rel, some i⟩
        | (slots1, rel, none) => ⟨⟨false, slots1, true⟩, some wo, rel, none⟩) := by
    rw [LiveRefs.add, hw, hfull, hlock]
    rfl
  rw [hfull] at hadd
  have hps := probeStore_eq_find env.collected wo size trace env.time st.slots hC
      st.slots.length (hashStart st.slots.length env.object env.jni trace) hstart
  rcases hfind : firstReusable env.collected st.slots
      (hashStart st.slots.length env.object env.jni trace) with _ | i
  · unfold firstReusable at hfind
    rw [hfind] at hps
    have hres : LiveRefs.add st env size trace =
        ⟨⟨false, st.slots, true⟩, some wo, [wo], none⟩ := by
      rw [hadd, hps]
    exact ⟨by rw [hres], hres⟩
  · unfold firstReusable at hfind
    rw [hfind] at hps
    have hres : LiveRefs.add st env size trace =
        ⟨⟨false, st.slots.set i ⟨some wo, size, trace, env.time⟩, false⟩, some wo,
          releasedOf (st.slots.getD i Slot.empty), some i⟩ := by
      rw [hadd, hps]
    exact ⟨by rw [hres], hres⟩

/-- Witness for C3 at the example table: probing starts at slot 3, wraps
around, and reuses slot 1 whose referent (handle 2) is collected, releasing
exactly that old handle. -/
theorem add_probe_spec_witness :
    (exampleEnv.wobject = some 9 ∧ exampleTable.full = false ∧
      exampleTable.locked = false ∧ 0 < exampleTable.slots.length) ∧
    ((LiveRefs.add exampleTable exampleEnv 55 0).table.locked = false ∧
      (match firstReusable exampleEnv.collected exampleTable.slots
          (hashStart exampleTable.slots.length exampleEnv.object exampleEnv.jni 0) with
        | some i =>
          LiveRefs.add exampleTable exampleEnv 55 0 =
            ⟨⟨false, exampleTable.slots.set i ⟨some 9, 55, 0, exampleEnv.time⟩, false⟩, some 9,
              releasedOf (exampleTable.slots.getD i Slot.empty), some i⟩
        | none =>
          LiveRefs.add exampleTable exampleEnv 55 0 =
            ⟨⟨false, exampleTable.slots, true⟩, some 9, [9], none⟩)) := by
  refine ⟨⟨rfl, rfl, rfl, by decide⟩, ?_⟩
  exact add_probe_spec exampleTable exampleEnv 9 55 0 rfl rfl rfl (by decide)

/-- Unfolding of `add` on the successful `tryLock` path: the call reduces to
the probe loop started at the hash index with one full cycle of fuel. -/
theorem add_unlocked (st : LiveRefsState) (env : AddEnv) (wo size trace : Nat)
    (hw : env.wobject = some wo) (hfull : st.full = false) (hlock : st.locked = false) :
    LiveRefs.add st env size trace =
      (match probeStore env.collected wo size trace env.time st.slots
          (hashStart st.slots.length env.object env.jni trace) st.slots.length with
        | (slots1, rel, some i) => ⟨⟨false, slots1, false⟩, some wo, rel, some i⟩
        | (slots1, rel, none) => ⟨⟨false, slots1, true⟩, some wo, rel, none⟩) := by
  rw [LiveRefs.add, hw, hfull, hlock]
  rfl

/-- An `add` on a table whose sticky full flag is set is a complete no-op:
no handle is acquired, nothing is released, nothing is stored. -/
theorem add_of_full (st : LiveRefsState) (env : AddEnv) (size trace : Nat)
    (hf : st.full = true) :
    LiveRefs.add st env size trace = ⟨st, none, [], none⟩ := by
  rw [LiveRefs.add, hf]
  rfl

/-- An `add` whose `NewWeakGlobalRef` reply is `NULL` is a no-op. -/
theorem add_of_none (st : LiveRefsState) (env : AddEnv) (size trace : Nat)
    (hw : env.wobject = none) (hf : st.full = false) :
    LiveRefs.add st env size trace = ⟨st, none, [], none⟩ := by
  rw [LiveRefs.add, hf, hw]
  rfl

/-- An `add` that loses the `tryLock` race releases the fresh handle and
leaves the table untouched. -/
theorem add_of_locked (st : LiveRefsState) (env : AddEnv) (wo size trace : Nat)
    (hw : env.wobject = some wo) (hf : st.full = false) (hl : st.locked = true) :
    LiveRefs.add st env size trace = ⟨st, some wo, [wo], none⟩ := by
  rw [LiveRefs.add, hf, hw, hl]
  rfl

/-- `add` never changes the number of slots: the array is fixed-capacity. -/
theorem add_slots_length (st : LiveRefsState) (env : AddEnv) (size trace : Nat) :
    (LiveRefs.add st env size trace).table.slots.length = st.slots.length := by
  cases hf : st.full with
  | true => rw [add_of_full st env size trace hf]
  | false =>
    rcases hw : env.wobject with _ | wo
    · rw [add_of_none st env size trace hw hf]
    · cases hl : st.locked with
      | true => rw [add_of_locked st env wo size trace hw hf hl]
      | false =>
        rw [add_unlocked st env wo size trace hw hf hl]
        have hlen := probeStore_length env.collected wo size trace env.time st.slots
            st.slots.length (hashStart st.slots.length env.object env.jni trace)
        rcases hp : probeStore env.collected wo size trace env.time st.slots
            (hashStart st.slots.length env.object env.jni trace) st.slots.length
            with ⟨slots1, rel, _ | i⟩
        · rw [hp] at hlen
          exact hlen
        · rw [hp] at hlen
          exact hlen

/-- Any sequence of `add` calls keeps the slot count equal to the capacity. -/
theorem addMany_slots_length (st : LiveRefsState) (ops : List AddOp) :
    (addMany st ops).slots.length = st.slots.length := by
  induction ops generalizing st with
  | nil => rfl
  | cons op ops ih =>
    show (addMany (LiveRefs.add st op.env op.size op.trace).table ops).slots.length = _
    rw [ih, add_slots_length]

/-- C4: after any sequence of `add` calls the populated slots never exceed the
fixed capacity (the slot array never grows); an `add` on a full table is a
complete no-op; `add` never clears the sticky full flag; `dump` preserves it;
only `gc` (the GC-start notification) and `init` clear it. -/
theorem capacity_and_sticky_full (st : LiveRefsState) (ops : List AddOp) (env : AddEnv)
    (size trace C : Nat) (collected : Nat → Bool) (classIdOf : Nat → Nat) :
    ((addMany st ops).slots.length = st.slots.length ∧
      populated (addMany st ops) ≤ st.slots.length) ∧
    (st.full = true → LiveRefs.add st env size trace = ⟨st, none, [], none⟩) ∧
    (st.full = true → (LiveRefs.add st env size trace).table.full = true) ∧
    (LiveRefs.dump st collected classIdOf).table.full = st.full ∧
    (LiveRefs.gc st).full = false ∧
    (LiveRefs.init C).full = false := by
  refine ⟨⟨addMany_slots_length st ops, ?_⟩, fun hf => add_of_full st env size trace hf,
    fun hf => ?_, rfl, rfl, rfl⟩
  · calc populated (addMany st ops) ≤ (addMany st ops).slots.length :=
          List.countP_le_length _
      _ = st.slots.length := addMany_slots_length st ops
  · rw [add_of_full st env size trace hf]
    exact hf

/-- Witness for C4: five same-start registrations into a fresh four-slot
table, and the no-op behavior of `add` on the example full table. -/
theorem capacity_and_sticky_full_witness :
    (fullTable.full = true) ∧
    ((addMany (LiveRefs.init 4) exampleOps).slots.length = 4 ∧
      populated (addMany (LiveRefs.init 4) exampleOps) ≤ 4) ∧
    LiveRefs.add fullTable plainEnv 5 0 = ⟨fullTable, none, [], none⟩ ∧
    (LiveRefs.add fullTable plainEnv 5 0).table.full = true ∧
    (LiveRefs.dump fullTable (fun _ => false) (fun _ => 0)).table.full = true ∧
    (LiveRefs.gc fullTable).full = false ∧
    (LiveRefs.init 4).full = false := by
  have h1 := capacity_and_sticky_full (LiveRefs.init 4) exampleOps plainEnv 5 0 4
      (fun _ => false) (fun _ => 0)
  have h2 := capacity_and_sticky_full fullTable [] plainEnv 5 0 4
      (fun _ => false) (fun _ => 0)
  exact ⟨rfl, ⟨h1.1.1.trans (by decide), le_trans h1.1.2 (by decide)⟩,
    h2.2.1 rfl, h2.2.2.1 rfl, h2.2.2.2.1.trans rfl, h2.2.2.2.2.1, h2.2.2.2.2.2⟩

/-- C7 counterexample: on a table marked full, even though the runtime has a
weak handle available, `add` returns without acquiring any handle and without
releasing one — the full-flag check precedes handle acquisition, so nothing
is acquired and nothing needs releasing, contrary to the claim that every
`add` call first acquires a handle and releases it when the table is full. -/
theorem add_full_acquires_nothing :
    (LiveRefs.add fullTable plainEnv 5 0).acquired = none ∧
    (LiveRefs.add fullTable plainEnv 5 0).released = [] := ⟨rfl, rfl⟩

/-- C7 amended: when the table is marked full, `add` returns immediately
without acquiring any handle and without modifying the table; otherwise it
first acquires a weak, collection-tolerant handle to the object, and if
handle acquisition fails it is a no-op. -/
theorem add_handle_acquisition (st : LiveRefsState) (env : AddEnv) (wo size trace : Nat) :
    (st.full = true → LiveRefs.add st env size trace = ⟨st, none, [], none⟩) ∧
    (st.full = false → env.wobject = none →
      LiveRefs.add st env size trace = ⟨st, none, [], none⟩) ∧
    (st.full = false → env.wobject = some wo →
      (LiveRefs.add st env size trace).acquired = some wo) := by
  refine ⟨fun hf => add_of_full st env size trace hf,
    fun hf hw => add_of_none st env size trace hw hf, fun hf hw => ?_⟩
  cases hl : st.locked with
  | true => rw [add_of_locked st env wo size trace hw hf hl]
  | false =>
    rw [add_unlocked st env wo size trace hw hf hl]
    rcases hp : probeStore env.collected wo size trace env.time st.slots
        (hashStart st.slots.length env.object env.jni trace) st.slots.length
        with ⟨slots1, rel, _ | i⟩ <;> rfl

/-- Witness for C7's amended claim at the example tables. -/
theorem add_handle_acquisition_witness :
    LiveRefs.add fullTable plainEnv 5 0 = ⟨fullTable, none, [], none⟩ ∧
    LiveRefs.add exampleTable noHandleEnv 5 0 = ⟨exampleTable, none, [], none⟩ ∧
    (LiveRefs.add exampleTable plainEnv 5 0).acquired = some 7 :=
  ⟨(add_handle_acquisition fullTable plainEnv 7 5 0).1 rfl,
    (add_handle_acquisition exampleTable noHandleEnv 7 5 0).2.1 rfl rfl,
    (add_handle_acquisition exampleTable plainEnv 7 5 0).2.2 rfl rfl⟩

/-- C10: `dump` acquires the lock and never releases it, leaving slots,
stored values and the full flag unchanged; the table is constructed with the
lock held; an `add` on a locked table fails its non-blocking acquisition and
drops the registration (table unchanged, fresh handle released); `add` and
`gc` never release the lock; `init` is the only operation that releases it,
also resetting the slots and clearing the flag. -/
theorem lock_discipline (st : LiveRefsState) (env : AddEnv) (wo size trace C : Nat)
    (collected : Nat → Bool) (classIdOf : Nat → Nat) :
    LiveRefs.initial.locked = true ∧
    (LiveRefs.dump st collected classIdOf).table = { st with locked := true } ∧
    (st.locked = true → st.full = false → env.wobject = some wo →
      LiveRefs.add st env size trace = ⟨st, some wo, [wo], none⟩) ∧
    (LiveRefs.add st env size trace).table.locked = st.locked ∧
    (LiveRefs.gc st).locked = st.locked ∧
    (LiveRefs.gc st).slots = st.slots ∧
    (LiveRefs.init C).locked = false ∧
    (LiveRefs.init C).slots = List.replicate C Slot.empty ∧
    (LiveRefs.init C).full = false := by
  refine ⟨rfl, rfl, fun hl hf hw => add_of_locked st env wo size trace hw hf hl, ?_,
    rfl, rfl, rfl, rfl, rfl⟩
  cases hf : st.full with
  | true => rw [add_of_full st env size trace hf]
  | false =>
    rcases hw : env.wobject with _ | wo2
    · rw [add_of_none st env size trace hw hf]
    · cases hl : st.locked with
      | true =>
        rw [add_of_locked st env wo2 size trace hw hf hl]
        exact hl
      | false =>
        rw [add_unlocked st env wo2 size trace hw hf hl]
        rcases hp : probeStore env.collected wo2 size trace env.time st.slots
            (hashStart st.slots.length env.object env.jni trace) st.slots.length
            with ⟨slots1, rel, _ | i⟩ <;> rfl

/-- Witness for C10 at the locked example table. -/
theorem lock_discipline_witness :
    (lockedTable.locked = true ∧ lockedTable.full = false ∧ plainEnv.wobject = some 7) ∧
    LiveRefs.initial.locked = true ∧
    (LiveRefs.dump lockedTable (fun _ => false) (fun _ => 0)).table
      = { lockedTable with locked := true } ∧
    LiveRefs.add lockedTable plainEnv 5 0 = ⟨lockedTable, some 7, [7], none⟩ ∧
    (LiveRefs.add lockedTable plainEnv 5 0).table.locked = true ∧
    (LiveRefs.gc lockedTable).locked = true ∧
    (LiveRefs.init 4).locked = false := by
  have h := lock_discipline lockedTable plainEnv 7 5 0 4 (fun _ => false) (fun _ => 0)
  exact ⟨⟨rfl, rfl, rfl⟩, h.1, h.2.1, h.2.2.1 rfl rfl rfl, h.2.2.2.1.trans rfl,
    h.2.2.2.2.1.trans rfl, h.2.2.2.2.2.2.1⟩

/-- Overwriting slot `j` with a fresh handle conserves handles: the handles
of the updated table plus the released previous handle are the handles of the
old table plus the fresh one. -/
theorem filterMap_set_conservation (wo size trace time : Nat) :
    ∀ (slots : List Slot) (j : Nat), j < slots.length →
    (((slots.set j ⟨some wo, size, trace, time⟩).filterMap (fun s => s.ref) : List Nat) : Multiset Nat)
        + ↑(releasedOf (slots.getD j Slot.empty))
      = ((slots.filterMap (fun s => s.ref) : List Nat) : Multiset Nat) + {wo} := by
  intro slots
  induction slots with
  | nil =>
    intro j hj
    exact absurd hj (by simp)
  | cons s rest ih =>
    intro j
    cases j with
    | zero =>
      intro _
      rw [List.set_cons_zero, List.getD_cons_zero, List.filterMap_cons, List.filterMap_cons]
      rcases hs : s.ref with _ | w
      · show ((wo :: rest.filterMap (fun s => s.ref) : List Nat) : Multiset Nat)
            + ↑(releasedOf s) = _
        have hrel : releasedOf s = [] := by
          unfold releasedOf
          rw [hs]
        rw [hrel]
        simp only [← Multiset.cons_coe, ← Multiset.singleton_add, Multiset.coe_nil]
        abel
      · show ((wo :: rest.filterMap (fun s => s.ref) : List Nat) : Multiset Nat)
            + ↑(releasedOf s)
          = ((w :: rest.filterMap (fun s => s.ref) : List Nat) : Multiset Nat) + {wo}
        have hrel : releasedOf s = [w] := by
          unfold releasedOf
          rw [hs]
        rw [hrel]
        simp only [← Multiset.cons_coe, ← Multiset.singleton_add, Multiset.coe_singleton]
        abel
    | succ j =>
      intro hj
      have hj2 : j < rest.length := by simpa using hj
      have ih2 := ih j hj2
      rw [List.set_cons_succ, List.getD_cons_succ, List.filterMap_cons, List.filterMap_cons]
      rcases hs : s.ref with _ | w
      · exact ih2
      · show ((w :: (rest.set j ⟨some wo, size, trace, time⟩).filterMap (fun s => s.ref)
              : List Nat) : Multiset Nat) + ↑(releasedOf (rest.getD j Slot.empty))
          = ((w :: rest.filterMap (fun s => s.ref) : List Nat) : Multiset Nat) + {wo}
        simp only [← Multiset.cons_coe, Multiset.cons_add]
        exact congrArg (fun m => w ::ₘ m) ih2

/-- The probe loop conserves handles: the handles in the resulting slots plus
the released handles always equal the original handles plus the fresh one. -/
theorem probeStore_conservation (collected : Nat → Bool) (wo size trace time : Nat)
    (slots : List Slot) (hC : 0 < slots.length) :
    ∀ fuel i, i < slots.length →
    (((probeStore collected wo size trace time slots i fuel).1.filterMap (fun s => s.ref)
        : List Nat) : Multiset Nat)
        + ↑(probeStore collected wo size trace time slots i fuel).2.1
      = ((slots.filterMap (fun s => s.ref) : List Nat) : Multiset Nat) + {wo} := by
  intro fuel
  induction fuel with
  | zero =>
    intro i _
    show ((slots.filterMap (fun s => s.ref) : List Nat) : Multiset Nat) + ↑[wo] = _
    rw [Multiset.coe_singleton]
  | succ fuel ih =>
    intro i hi
    rcases h : (slots.getD i Slot.empty).ref with _ | w
    · have hstep : probeStore collected wo size trace time slots i (fuel + 1)
          = (slots.set i ⟨some wo, size, trace, time⟩, ([], some i)) := by
        rw [probeStore, h]
      have hrel : releasedOf (slots.getD i Slot.empty) = [] := by
        unfold releasedOf
        rw [h]
      have hc := filterMap_set_conservation wo size trace time slots i hi
      rw [hrel] at hc
      rw [hstep]
      exact hc
    · have hstep : probeStore collected wo size trace time slots i (fuel + 1)
          = if collected w = true
            then (slots.set i ⟨some wo, size, trace, time⟩, ([w], some i))
            else probeStore collected wo size trace time slots ((i + 1) % slots.length) fuel := by
        rw [probeStore, h]
      rw [hstep]
      by_cases hcw : collected w = true
      · rw [if_pos hcw]
        have hrel : releasedOf (slots.getD i Slot.empty) = [w] := by
          unfold releasedOf
          rw [h]
        have hc := filterMap_set_conservation wo size trace time slots i hi
        rw [hrel] at hc
        exact hc
      · rw [if_neg hcw]
        exact ih ((i + 1) % slots.length) (Nat.mod_lt _ hC)

/-- The dump scan releases exactly the handle of every non-empty slot,
whether or not its referent was collected. -/
theorem dumpLoop_released (collected : Nat → Bool) (classIdOf : Nat → Nat) :
    ∀ slots : List Slot, (LiveRefs.dumpLoop collected classIdOf slots).2
      = slots.filterMap (fun s => s.ref) := by
  intro slots
  induction slots with
  | nil => rfl
  | cons s rest ih =>
    rw [LiveRefs.dumpLoop, List.filterMap_cons]
    rcases hs : s.ref with _ | w
    · exact ih
    · by_cases hc : collected w = true
      · simp only [if_pos hc]
        rw [ih]
      · simp only [if_neg hc]
        rw [ih]

/-- C6: no weak handle is leaked.  For an `add` that acquired a fresh handle
on a non-full table, the handles owned by the resulting table plus the
released handles are exactly the handles of the old table plus the fresh
handle (so the fresh handle is stored or released exactly once, and a
superseded handle is released exactly once); a full table or a failed
acquisition acquires and releases nothing; `dump` releases the handle of
every non-empty slot exactly once, collected or not. -/
theorem handle_conservation (st : LiveRefsState) (env : AddEnv) (wo size trace : Nat)
    (collected : Nat → Bool) (classIdOf : Nat → Nat) :
    (env.wobject = some wo → st.full = false →
      tableHandles (LiveRefs.add st env size trace).table
          + ↑(LiveRefs.add st env size trace).released
        = tableHandles st + {wo}) ∧
    (env.wobject = none → st.full = false →
      LiveRefs.add st env size trace = ⟨st, none, [], none⟩) ∧
    (st.full = true → LiveRefs.add st env size trace = ⟨st, none, [], none⟩) ∧
    (LiveRefs.dump st collected classIdOf).released
      = st.slots.filterMap (fun s => s.ref) := by
  refine ⟨fun hw hf => ?_, fun hw hf => add_of_none st env size trace hw hf,
    fun hf => add_of_full st env size trace hf,
    dumpLoop_released collected classIdOf st.slots⟩
  cases hl : st.locked with
  | true =>
    rw [add_of_locked st env wo size trace hw hf hl]
    show tableHandles st + ↑[wo] = tableHandles st + {wo}
    rw [Multiset.coe_singleton]
  | false =>
    rw [add_unlocked st env wo size trace hw hf hl]
    by_cases hlen : st.slots.length = 0
    · rw [hlen]
      show tableHandles ⟨false, st.slots, true⟩ + ↑[wo] = tableHandles st + {wo}
      rw [Multiset.coe_singleton]
      rfl
    · have hpos : 0 < st.slots.length := Nat.pos_of_ne_zero hlen
      have hcons := probeStore_conservation env.collected wo size trace env.time st.slots hpos
          st.slots.length (hashStart st.slots.length env.object env.jni trace)
          (Nat.mod_lt _ hpos)
      rcases hp : probeStore env.collected wo size trace env.time st.slots
          (hashStart st.slots.length env.object env.jni trace) st.slots.length
          with ⟨slots1, rel, _ | i⟩
      · rw [hp] at hcons
        exact hcons
      · rw [hp] at hcons
        exact hcons

/-- Witness for C6 at the example table: the reuse of slot 1 stores handle 9
and releases the superseded collected handle 2 exactly once; a `NULL`
acquisition is a no-op; `dump` releases the three stored handles. -/
theorem handle_conservation_witness :
    (exampleEnv.wobject = some 9 ∧ exampleTable.full = false) ∧
    tableHandles (LiveRefs.add exampleTable exampleEnv 55 0).table
        + ↑(LiveRefs.add exampleTable exampleEnv 55 0).released
      = tableHandles exampleTable + {9} ∧
    LiveRefs.add exampleTable noHandleEnv 55 0 = ⟨exampleTable, none, [], none⟩ ∧
    (LiveRefs.dump exampleTable (fun w => w == 2) (fun _ => 42)).released
      = exampleTable.slots.filterMap (fun s => s.ref) := by
  have h1 := handle_conservation exampleTable exampleEnv 9 55 0 (fun w => w == 2) (fun _ => 42)
  have h2 := handle_conservation exampleTable noHandleEnv 9 55 0 (fun w => w == 2) (fun _ => 42)
  exact ⟨⟨rfl, rfl⟩, h1.1 rfl rfl, h2.2.1 rfl rfl, h1.2.2.2⟩

/-- The dump scan's emitted events, declaratively: exactly one event per slot
holding a handle whose referent is still alive, in slot order; empty and
collected slots emit nothing. -/
theorem dumpLoop_events (collected : Nat → Bool) (classIdOf : Nat → Nat) :
    ∀ slots : List Slot, (LiveRefs.dumpLoop collected classIdOf slots).1
      = slots.filterMap (slotEvent collected classIdOf) := by
  intro slots
  induction slots with
  | nil => rfl
  | cons s rest ih =>
    rcases hs : s.ref with _ | w
    · have hstep : LiveRefs.dumpLoop collected classIdOf (s :: rest)
          = LiveRefs.dumpLoop collected classIdOf rest := by
        rw [LiveRefs.dumpLoop, hs]
      have hhead : slotEvent collected classIdOf s = none := by
        unfold slotEvent
        rw [hs]
      rw [hstep, List.filterMap_cons_none hhead]
      exact ih
    · have hstep0 : LiveRefs.dumpLoop collected classIdOf (s :: rest)
          = if collected w then
              ((LiveRefs.dumpLoop collected classIdOf rest).1,
                w :: (LiveRefs.dumpLoop collected classIdOf rest).2)
            else
              (LiveRefs.mkLiveSample classIdOf s w :: (LiveRefs.dumpLoop collected classIdOf rest).1,
                w :: (LiveRefs.dumpLoop collected classIdOf rest).2) := by
        rw [LiveRefs.dumpLoop, hs]
      by_cases hc : collected w = true
      · have hhead : slotEvent collected classIdOf s = none := by
          unfold slotEvent
          rw [hs]
          show (if collected w then none
              else some (LiveRefs.mkLiveSample classIdOf s w)) = none
          rw [if_pos hc]
        rw [hstep0, if_pos hc, List.filterMap_cons_none hhead]
        exact ih
      · have hhead : slotEvent collected classIdOf s
            = some (LiveRefs.mkLiveSample classIdOf s w) := by
          unfold slotEvent
          rw [hs]
          show (if collected w then none
              else some (LiveRefs.mkLiveSample classIdOf s w))
            = some (LiveRefs.mkLiveSample classIdOf s w)
          rw [if_neg hc]
        rw [hstep0, if_neg hc, List.filterMap_cons_some hhead]
        show LiveRefs.mkLiveSample classIdOf s w :: (LiveRefs.dumpLoop collected classIdOf rest).1
            = LiveRefs.mkLiveSample classIdOf s w :: _
        rw [ih]

/-- The number of events the dump scan emits equals the number of slots
holding a live (not collected) referent. -/
theorem dumpLoop_events_length (collected : Nat → Bool) (classIdOf : Nat → Nat) :
    ∀ slots : List Slot, (LiveRefs.dumpLoop collected classIdOf slots).1.length
      = slots.countP (slotAlive collected) := by
  intro slots
  induction slots with
  | nil => rfl
  | cons s rest ih =>
    rcases hs : s.ref with _ | w
    · have hstep : LiveRefs.dumpLoop collected classIdOf (s :: rest)
          = LiveRefs.dumpLoop collected classIdOf rest := by
        rw [LiveRefs.dumpLoop, hs]
      have hp : slotAlive collected s = false := by
        unfold slotAlive
        rw [hs]
      have hcount : List.countP (slotAlive collected) (s :: rest)
          = List.countP (slotAlive collected) rest := by
        rw [List.countP_cons, hp]
        rfl
      rw [hstep, hcount]
      exact ih
    · have hstep0 : LiveRefs.dumpLoop collected classIdOf (s :: rest)
          = if collected w then
              ((LiveRefs.dumpLoop collected classIdOf rest).1,
                w :: (LiveRefs.dumpLoop collected classIdOf rest).2)
            else
              (LiveRefs.mkLiveSample classIdOf s w :: (LiveRefs.dumpLoop collected classIdOf rest).1,
                w :: (LiveRefs.dumpLoop collected classIdOf rest).2) := by
        rw [LiveRefs.dumpLoop, hs]
      by_cases hc : collected w = true
      · have hp : slotAlive collected s = false := by
          unfold slotAlive
          rw [hs]
          show (!collected w) = false
          rw [hc]
          rfl
        have hcount : List.countP (slotAlive collected) (s :: rest)
            = List.countP (slotAlive collected) rest := by
          rw [List.countP_cons, hp]
          rfl
        rw [hstep0, if_pos hc, hcount]
        show (LiveRefs.dumpLoop collected classIdOf rest).1.length = _
        exact ih
      · have hcf : collected w = false := by
          rw [← Bool.not_eq_true]
          exact hc
        have hp : slotAlive collected s = true := by
          unfold slotAlive
          rw [hs]
          show (!collected w) = true
          rw [hcf]
          rfl
        have hcount : List.countP (slotAlive collected) (s :: rest)
            = List.countP (slotAlive collected) rest + 1 := by
          rw [List.countP_cons, hp]
          rfl
        rw [hstep0, if_neg hc, hcount]
        show (LiveRefs.dumpLoop collected classIdOf rest).1.length + 1 = _
        rw [ih]

/-- Disjoint bitwise-or is addition: when the low summand fits in `k` bits,
`a * 2^k ||| b = a * 2^k + b`. -/
theorem mul_two_pow_lor_eq_add : ∀ (k a b : Nat), b < 2 ^ k → a * 2 ^ k ||| b = a * 2 ^ k + b := by
  intro k
  induction k with
  | zero =>
    intro a b hb
    have hb0 : b = 0 := Nat.lt_one_iff.mp (by simpa using hb)
    subst hb0
    simp
  | succ k ih =>
    intro a b hb
    have hx2 : (a * 2 ^ (k + 1)) % 2 = 0 := by
      have hform : a * 2 ^ (k + 1) = (a * 2 ^ k) * 2 := by ring
      rw [hform, Nat.mul_mod_left]
    have hxd : (a * 2 ^ (k + 1)) / 2 = a * 2 ^ k := by
      have hform : a * 2 ^ (k + 1) = (a * 2 ^ k) * 2 := by ring
      rw [hform, Nat.mul_div_cancel _ (by norm_num)]
    have hbd : b / 2 < 2 ^ k := by
      have hform : (2 : Nat) ^ (k + 1) = 2 ^ k * 2 := by ring
      rw [hform] at hb
      omega
    have hmod : (a * 2 ^ (k + 1) ||| b) % 2 = b % 2 := by
      have hiff := Nat.or_mod_two_eq_one (a := a * 2 ^ (k + 1)) (b := b)
      have h01 := Nat.mod_two_eq_zero_or_one (a * 2 ^ (k + 1) ||| b)
      have hb01 := Nat.mod_two_eq_zero_or_one b
      rcases hb01 with hb2 | hb2
      · rcases h01 with hx | hx
        · omega
        · have := hiff.mp hx
          omega
      · have := hiff.mpr (Or.inr hb2)
        omega
    have hdiv : (a * 2 ^ (k + 1) ||| b) / 2 = a * 2 ^ k ||| b / 2 := by
      rw [Nat.or_div_two, hxd]
    calc a * 2 ^ (k + 1) ||| b
        = 2 * ((a * 2 ^ (k + 1) ||| b) / 2) + (a * 2 ^ (k + 1) ||| b) % 2 :=
          (Nat.div_add_mod _ 2).symm
      _ = 2 * (a * 2 ^ k ||| b / 2) + b % 2 := by rw [hdiv, hmod]
      _ = 2 * (a * 2 ^ k + b / 2) + b % 2 := by rw [ih a (b / 2) hbd]
      _ = a * 2 ^ (k + 1) + (2 * (b / 2) + b % 2) := by ring
      _ = a * 2 ^ (k + 1) + b := by rw [Nat.div_add_mod b 2]

/-- The packed trace `(threadId << 32) | callTraceId` equals
`threadId * 2^32 + callTraceId` when the call-trace id fits in 32 bits. -/
theorem packTrace_eq (tid ct : Nat) (h : ct < 2 ^ 32) :
    tid <<< 32 ||| ct = tid * 2 ^ 32 + ct := by
  rw [Nat.shiftLeft_eq]
  exact mul_two_pow_lor_eq_add 32 tid ct h

/-- Unpacking the trace: the high 32 bits recover the thread id and the low
32 bits the call-trace id. -/
theorem unpackTrace_eq (tid ct : Nat) (ht : tid < 2 ^ 32) (hc : ct < 2 ^ 32) :
    ((tid * 2 ^ 32 + ct) >>> 32) % 2 ^ 32 = tid ∧ (tid * 2 ^ 32 + ct) % 2 ^ 32 = ct := by
  rw [Nat.shiftRight_eq_div_pow]
  have h32 : (2 : Nat) ^ 32 = 4294967296 := by norm_num
  rw [h32] at ht hc ⊢
  omega

/-- C5: `dump` emits exactly one event per slot whose referent is still alive
at drain time and none for collected or empty slots; each emitted event
carries the slot's stored size and time and a class id resolved at dump time
from the materialized referent, and is tagged with thread id = high 32 bits
and call-trace id = low 32 bits of the stored trace, recovering exactly the
`(threadId, callTraceId)` pair packed at capture. -/
theorem dump_event_spec (st : LiveRefsState) (collected : Nat → Bool) (classIdOf : Nat → Nat) :
    (LiveRefs.dump st collected classIdOf).events
        = st.slots.filterMap (slotEvent collected classIdOf) ∧
    (LiveRefs.dump st collected classIdOf).events.length
        = st.slots.countP (slotAlive collected) ∧
    (∀ s ∈ st.slots, ∀ w tid ct, s.ref = some w → collected w = false →
      tid < 2 ^ 32 → ct < 2 ^ 32 → s.trace = tid <<< 32 ||| ct →
      ({ weight := s.size, tid := tid,
         event := { alloc_size := s.size, alloc_time := s.time, class_id := classIdOf w },
         call_trace_id := ct } : ExternalSample)
        ∈ (LiveRefs.dump st collected classIdOf).events) := by
  have hev : (LiveRefs.dump st collected classIdOf).events
      = st.slots.filterMap (slotEvent collected classIdOf) :=
    dumpLoop_events collected classIdOf st.slots
  refine ⟨hev, dumpLoop_events_length collected classIdOf st.slots, ?_⟩
  intro s hsmem w tid ct href hcw ht hct htrace
  rw [hev]
  apply List.mem_filterMap.mpr
  refine ⟨s, hsmem, ?_⟩
  have hnc : ¬(collected w = true) := by
    rw [hcw]
    exact Bool.false_ne_true
  unfold slotEvent
  rw [href]
  show (if collected w then none else some (LiveRefs.mkLiveSample classIdOf s w))
      = some ({ weight := s.size, tid := tid,
                event := { alloc_size := s.size, alloc_time := s.time, class_id := classIdOf w },
                call_trace_id := ct } : ExternalSample)
  rw [if_neg hnc]
  unfold LiveRefs.mkLiveSample
  have hpack : s.trace = tid * 2 ^ 32 + ct := by
    rw [htrace, packTrace_eq tid ct hct]
  have hun := unpackTrace_eq tid ct ht hct
  rw [hpack, hun.1, hun.2]

/-- Witness for C5 (scenario 4): one registered object of size 500 with trace
packing thread id 3 and call-trace id 7; `dump` emits exactly one event with
matching size, capture time, resolved class id, and the trace decoded back. -/
theorem dump_event_spec_witness :
    (LiveRefs.dump dumpTable (fun _ => false) (fun _ => 42)).events
        = dumpTable.slots.filterMap (slotEvent (fun _ => false) (fun _ => 42)) ∧
    (LiveRefs.dump dumpTable (fun _ => false) (fun _ => 42)).events.length = 1 ∧
    ({ weight := 500, tid := 3,
       event := { alloc_size := 500, alloc_time := 99, class_id := 42 },
       call_trace_id := 7 } : ExternalSample)
      ∈ (LiveRefs.dump dumpTable (fun _ => false) (fun _ => 42)).events := by
  have h := dump_event_spec dumpTable (fun _ => false) (fun _ => 42)
  refine ⟨h.1, ?_, ?_⟩
  · rw [h.2.1]
    rfl
  · exact h.2.2 ⟨some 4, 500, 3 <<< 32 ||| 7, 99⟩ (by decide) 4 3 7 rfl rfl
      (by norm_num) (by norm_num) rfl
